import Mathlib

/-!
Shallow embedding of the `actix-schemeredirect-middleware` crate
(`src/middleware.rs` and `src/data.rs`) and proofs about it.

The middleware redirects plaintext requests to https depending on the
client's address family, and decorates responses with a
Strict-Transport-Security header built from a configured policy.
-/

namespace SchemeRedirect

/-- The `Protocols` enum from `src/data.rs`: which client address families
trigger redirection. -/
inductive Protocols
  | IPv4
  | IPv6
  | Both
  | None
deriving DecidableEq, Repr

/-- Rust `std::net::SocketAddr`: either an IPv4 socket address (four octets
and a port) or an IPv6 socket address (eight 16-bit segments and a port). -/
inductive SocketAddr
  | V4 (a b c d : Nat) (port : Nat)
  | V6 (s0 s1 s2 s3 s4 s5 s6 s7 : Nat) (port : Nat)
deriving DecidableEq, Repr

/-- Rust `Ipv6Addr::to_ipv4_mapped`: `Some` exactly when the address is of
the `::ffff:a.b.c.d` form, i.e. the first five 16-bit segments are zero and
the sixth is `0xffff`. -/
def toIpv4Mapped (s0 s1 s2 s3 s4 s5 s6 s7 : Nat) : Option (Nat × Nat) :=
  if s0 = 0 ∧ s1 = 0 ∧ s2 = 0 ∧ s3 = 0 ∧ s4 = 0 ∧ s5 = 0xffff then
    some (s6, s7)
  else
    none

/-- `matches!(protocols, Protocols::None)` in `SchemeRedirectMiddleware::call`. -/
def protocolsIsNone : Protocols → Bool
  | .None => true
  | _ => false

/-- `matches!(self.protocols, Protocols::IPv4 | Protocols::Both)`. -/
def v4Enabled : Protocols → Bool
  | .IPv4 => true
  | .Both => true
  | _ => false

/-- `matches!(self.protocols, Protocols::IPv6 | Protocols::Both)`. -/
def v6Enabled : Protocols → Bool
  | .IPv6 => true
  | .Both => true
  | _ => false

/-- The `to_redirect` computation of `SchemeRedirectMiddleware::call`
(`src/middleware.rs` lines 91–124): the policy is not `None`, and the peer
address (when present) matches the policy, an IPv4-mapped IPv6 address
counting as IPv4. -/
def to_redirect (protocols : Protocols) (peer : Option SocketAddr) : Bool :=
  !(protocolsIsNone protocols) &&
    (Option.bind peer (fun a =>
      match a with
      | .V6 s0 s1 s2 s3 s4 s5 s6 s7 _ =>
        if (toIpv4Mapped s0 s1 s2 s3 s4 s5 s6 s7).isSome then
          if v4Enabled protocols then some () else none
        else if v6Enabled protocols then some () else none
      | .V4 _ _ _ _ _ =>
        if v4Enabled protocols then some () else none)).isSome

/-- The spec's derived `AddressFamily` value (§3 of the design spec). -/
inductive AddressFamily
  | IPv4
  | IPv6
  | Unknown
deriving DecidableEq, Repr

/-- The spec's Address Classifier (§4.1), written from the spec's words to be
compared with the fused decision in `to_redirect`: absent peer → `Unknown`,
IPv4 socket → `IPv4`, IPv4-mapped IPv6 socket → `IPv4`, other IPv6 → `IPv6`. -/
def classifySpec : Option SocketAddr → AddressFamily
  | none => .Unknown
  | some (.V4 _ _ _ _ _) => .IPv4
  | some (.V6 s0 s1 s2 s3 s4 s5 s6 s7 _) =>
    if (toIpv4Mapped s0 s1 s2 s3 s4 s5 s6 s7).isSome then .IPv4 else .IPv6

/-- The spec's decision table restricted to the (policy, family) pairs that
redirect: (IPv4, IPv4), (IPv6, IPv6), (Both, IPv4), (Both, IPv6). -/
def redirectPairSpec : Protocols → AddressFamily → Bool
  | .IPv4, .IPv4 => true
  | .IPv6, .IPv6 => true
  | .Both, .IPv4 => true
  | .Both, .IPv6 => true
  | _, _ => false

/-- Fuel-driven digit extraction: with fuel exceeding the value, the decimal
digits of the value, most significant first. -/
def natDigitsCore : Nat → Nat → List Char
  | 0, _ => []
  | fuel + 1, n =>
    if n < 10 then [Char.ofNat (48 + n)]
    else natDigitsCore fuel (n / 10) ++ [Char.ofNat (48 + n % 10)]

/-- Decimal digits of a natural number, most significant first; model of how
Rust `std` formats a `u64` with `Display` (plain base-10, no sign, no
separators, `0` printed as `"0"`). -/
def natDigits (n : Nat) : List Char :=
  natDigitsCore (n + 1) n

/-- Model of Rust `Display`/`format!` output for a `u64` value. -/
def formatU64 (n : Nat) : String :=
  String.mk (natDigits n)

/-- Positional base-10 value of a digit string, used to state that
`formatU64` really is plain base-10. -/
def digitsVal (l : List Char) : Nat :=
  l.foldl (fun acc c => 10 * acc + (c.toNat - 48)) 0

/-- The `StrictTransportSecurity` configuration from `src/data.rs`: `duration`
models the stored `Duration` through its whole-second count (`as_secs`, a
`u64`). -/
structure StrictTransportSecurity where
  duration : Nat
  include_subdomains : Bool
  preload : Bool
deriving DecidableEq, Repr

/-- The `Display` implementation for `StrictTransportSecurity`
(`src/data.rs` lines 66–77): `max-age={secs}{subdomains}{preload}`. -/
def StrictTransportSecurity.toHeaderString (s : StrictTransportSecurity) : String :=
  "max-age=" ++ formatU64 s.duration
    ++ (if s.include_subdomains then "; includeSubDomains" else "")
    ++ (if s.preload then "; preload" else "")

/-- Validity of one character of an HTTP header value, per the `http` crate
check used by `HeaderValue::from_str`: every byte must be `\t` or in
`32..=255` excluding `127`; for ASCII characters this is the by-character
condition below, and characters above `127` encode to bytes `≥ 128`, all
valid. -/
def headerValueValidChar (c : Char) : Bool :=
  c.toNat == 9 || (32 ≤ c.toNat && c.toNat ≠ 127)

/-- Model of `actix_web::http::header::HeaderValue::from_str`: `some` (the
string itself) when every character is a valid header-value character,
`none` (an `InvalidHeaderValue` error) otherwise. -/
def headerValueFromStr (s : String) : Option String :=
  if s.data.all headerValueValidChar then some s else none

/-- The header name `STRICT_TRANSPORT_SECURITY` used by `insert_into`. -/
def STRICT_TRANSPORT_SECURITY : String := "strict-transport-security"

/-- Model of `actix_web::http::header::HeaderMap::insert`: associates the
name with the single given value, removing every previous value stored under
that name. -/
def insertHeader (m : List (String × String)) (name value : String) :
    List (String × String) :=
  (name, value) :: m.filter (fun p => p.1 != name)

/-- Model of `HeaderMap::get`: the first value stored under the name. -/
def getHeader (m : List (String × String)) (name : String) : Option String :=
  (m.find? (fun p => p.1 == name)).map (fun p => p.2)

/-- Number of occurrences of a header name in a header map. -/
def countHeader (m : List (String × String)) (name : String) : Nat :=
  (m.filter (fun p => p.1 == name)).length

/-- An HTTP response as the middleware observes it: a status code and its
headers. -/
structure HttpResponse where
  status : Nat
  headers : List (String × String)
deriving DecidableEq, Repr

/-- `StrictTransportSecurity::insert_into` (`src/data.rs` lines 79–86):
builds the header value from the `Display` string and inserts it under
`STRICT_TRANSPORT_SECURITY`; the source calls `.unwrap()` on the
`HeaderValue::from_str` result, so an invalid value is a panic, modelled as
`none`. -/
def StrictTransportSecurity.insert_into (s : StrictTransportSecurity)
    (res : HttpResponse) : Option HttpResponse :=
  (headerValueFromStr s.toHeaderString).map (fun v =>
    { res with headers := insertHeader res.headers STRICT_TRANSPORT_SECURITY v })

/-- `apply_hsts` (`src/middleware.rs` lines 156–160): insert the HSTS header
when a policy is configured, do nothing otherwise. -/
def apply_hsts (hsts : Option StrictTransportSecurity) (res : HttpResponse) :
    Option HttpResponse :=
  match hsts with
  | some h => h.insert_into res
  | none => some res

/-- The slice of an actix `ServiceRequest` the middleware reads: the peer
socket address (`req.peer_addr()`), the connection info's scheme and host
(`conn_info.scheme()`, `conn_info.host()`), the URI path (`req.uri().path()`)
and the URI query string (`req.uri().query()`, `none` when the request has no
query). -/
structure ServiceRequest where
  peer_addr : Option SocketAddr
  scheme : String
  host : String
  path : String
  query : Option String
deriving DecidableEq, Repr

/-- Helper for `split_once` on the character list of a string. -/
def splitOnceChars : List Char → Char → Option (List Char × List Char)
  | [], _ => none
  | x :: xs, c =>
    if x = c then some ([], xs)
    else (splitOnceChars xs c).map (fun p => (x :: p.1, p.2))

/-- Rust `str::split_once`: splits at the first occurrence of the character,
`None` when the character does not occur. -/
def split_once (s : String) (c : Char) : Option (String × String) :=
  (splitOnceChars s.data c).map (fun p => (String.mk p.1, String.mk p.2))

/-- `host.split_once(':').unwrap_or((host, ""))` from the source, projected
to the hostname component. -/
def hostnameOf (host : String) : String :=
  ((split_once host ':').getD (host, "")).1

/-- The target URI built by `SchemeRedirectMiddleware::call`
(`src/middleware.rs` lines 127–131):
`format!("https://{hostname}:{port}{path}")` when a port is configured,
`format!("https://{hostname}{path}")` otherwise. -/
def builtUri (port : Option Nat) (hostname path : String) : String :=
  match port with
  | some p => "https://" ++ hostname ++ ":" ++ formatU64 p ++ path
  | none => "https://" ++ hostname ++ path

/-- Model of `web::Redirect::to(uri)` followed by `respond_to`: a response
with status 307 (Temporary Redirect, the default status of `web::Redirect`)
whose `location` header holds the URI when the URI parses as a header value;
an unparsable URI is logged and the header omitted. -/
def redirectResponse (uri : String) : HttpResponse :=
  { status := 307,
    headers :=
      match headerValueFromStr uri with
      | some v => insertHeader [] "location" v
      | none => [] }

/-- The middleware state built by `new_transform`: the configuration plus the
wrapped service. The service is modelled as a pure function from request to
response (its `Result`/async wrapper plays no role in the claims). -/
structure SchemeRedirectMiddleware where
  protocols : Protocols
  hsts : Option StrictTransportSecurity
  port : Option Nat
deriving DecidableEq, Repr

/-- `SchemeRedirectMiddleware::call` (`src/middleware.rs` lines 88–152).
Returns the produced response paired with the number of times the wrapped
service was invoked; `none` models the panic of the `unwrap` inside
`insert_into`. -/
def SchemeRedirectMiddleware.call (mw : SchemeRedirectMiddleware)
    (service : ServiceRequest → HttpResponse) (req : ServiceRequest) :
    Option (HttpResponse × Nat) :=
  let toRedirect := to_redirect mw.protocols req.peer_addr
  if toRedirect && (req.scheme != "https") then
    let hostname := hostnameOf req.host
    let uri := builtUri mw.port hostname req.path
    let res := redirectResponse uri
    (apply_hsts mw.hsts res).map (fun r => (r, 0))
  else
    let res := service req
    (apply_hsts mw.hsts res).map (fun r => (r, 1))

/-- A wrapped service that answers every request with an empty 200 response. -/
def nextConst : ServiceRequest → HttpResponse := fun _ => ⟨200, []⟩

/-- Redirect IPv4 clients, no HSTS policy, redirect port 8443. -/
def mwA : SchemeRedirectMiddleware := ⟨.IPv4, none, some 8443⟩

/-- Redirect IPv4 clients, HSTS policy with the default values, port 8443. -/
def mwB : SchemeRedirectMiddleware := ⟨.IPv4, some ⟨300, false, false⟩, some 8443⟩

/-- Redirect IPv4 clients, no HSTS policy, no redirect port. -/
def mwC : SchemeRedirectMiddleware := ⟨.IPv4, none, none⟩

/-- Redirect both families, no HSTS policy, no redirect port. -/
def mwD : SchemeRedirectMiddleware := ⟨.Both, none, none⟩

/-- Redirect both families, no HSTS policy, redirect port 443. -/
def mwE : SchemeRedirectMiddleware := ⟨.Both, none, some 443⟩

/-- A plain-http request from an IPv4 peer with a query string. -/
def reqA : ServiceRequest :=
  ⟨some (.V4 1 2 3 4 5555), "http", "example.com", "/a", some "x=1"⟩

/-- A plain-http request from an IPv4 peer whose reported host is empty. -/
def reqB : ServiceRequest :=
  ⟨some (.V4 9 9 9 9 80), "http", "", "/p", none⟩

/-- A plain-http request from a genuine IPv6 peer whose host carries a
port. -/
def reqD : ServiceRequest :=
  ⟨some (.V6 0x2001 0xdb8 0 0 0 0 0 1 443), "http", "example.com:8080", "/x",
    none⟩

/-- A plain-http request from an IPv6 loopback peer with a bracketed IPv6
host literal. -/
def reqE : ServiceRequest :=
  ⟨some (.V6 0 0 0 0 0 0 0 1 99), "http", "[::1]:8080", "/x", none⟩

/-- An https request (never redirected). -/
def reqF : ServiceRequest :=
  ⟨some (.V4 1 2 3 4 1), "https", "h", "/", none⟩

/-- The response `mwA` produces for `reqA`. -/
def resA : HttpResponse :=
  ⟨307, [("location", "https://example.com:8443/a")]⟩

/-- The response `mwB` produces for `reqA`. -/
def resB : HttpResponse :=
  ⟨307, [("strict-transport-security", "max-age=300"),
    ("location", "https://example.com:8443/a")]⟩

/-- The response `mwC` produces for `reqB`. -/
def resC : HttpResponse :=
  ⟨307, [("location", "https:///p")]⟩

/-- The response `mwD` produces for `reqD`. -/
def resD : HttpResponse :=
  ⟨307, [("location", "https://example.com/x")]⟩

/-- The response `mwE` produces for `reqE`. -/
def resE : HttpResponse :=
  ⟨307, [("location", "https://[:443/x")]⟩

theorem to_redirect_spec (p : Protocols) (peer : Option SocketAddr) :
    to_redirect p peer = redirectPairSpec p (classifySpec peer) := by
  cases peer with
  | none => cases p <;> rfl
  | some a =>
    cases a with
    | V4 a b c d port => cases p <;> rfl
    | V6 s0 s1 s2 s3 s4 s5 s6 s7 port =>
      by_cases h : (toIpv4Mapped s0 s1 s2 s3 s4 s5 s6 s7).isSome
      · cases p <;>
          simp [to_redirect, classifySpec, h, protocolsIsNone, v4Enabled,
            v6Enabled, redirectPairSpec]
      · cases p <;>
          simp [to_redirect, classifySpec, h, protocolsIsNone, v4Enabled,
            v6Enabled, redirectPairSpec]

theorem digitsVal_append_one (l : List Char) (c : Char) :
    digitsVal (l ++ [c]) = 10 * digitsVal l + (c.toNat - 48) := by
  simp [digitsVal, List.foldl_append]

theorem toNat_ofNat_digit (d : Nat) (h : d < 10) :
    (Char.ofNat (48 + d)).toNat = 48 + d := by
  interval_cases d <;> decide

theorem natDigitsCore_digits (fuel : Nat) :
    ∀ n, n < fuel → ∀ c ∈ natDigitsCore fuel n,
      48 ≤ c.toNat ∧ c.toNat ≤ 57 := by
  induction fuel with
  | zero => omega
  | succ f ih =>
    intro n hn c hc
    simp only [natDigitsCore] at hc
    split at hc
    · rename_i h
      simp only [List.mem_singleton] at hc
      subst hc
      rw [toNat_ofNat_digit n h]
      omega
    · rename_i h
      rw [List.mem_append] at hc
      rcases hc with hc | hc
      · have hlt : n / 10 < n := Nat.div_lt_self (by omega) (by omega)
        exact ih (n / 10) (by omega) c hc
      · simp only [List.mem_singleton] at hc
        subst hc
        rw [toNat_ofNat_digit (n % 10) (Nat.mod_lt _ (by omega))]
        omega

theorem natDigits_digits (n : Nat) :
    ∀ c ∈ natDigits n, 48 ≤ c.toNat ∧ c.toNat ≤ 57 :=
  natDigitsCore_digits (n + 1) n (by omega)

theorem digitsVal_natDigitsCore (fuel : Nat) :
    ∀ n, n < fuel → digitsVal (natDigitsCore fuel n) = n := by
  induction fuel with
  | zero => omega
  | succ f ih =>
    intro n hn
    simp only [natDigitsCore]
    split
    · rename_i h
      simp [digitsVal, toNat_ofNat_digit n h]
    · rename_i h
      have hlt : n / 10 < n := Nat.div_lt_self (by omega) (by omega)
      rw [digitsVal_append_one, ih (n / 10) (by omega),
        toNat_ofNat_digit (n % 10) (Nat.mod_lt _ (by omega))]
      omega

theorem digitsVal_natDigits (n : Nat) : digitsVal (natDigits n) = n :=
  digitsVal_natDigitsCore (n + 1) n (by omega)

theorem data_append (a b : String) : (a ++ b).data = a.data ++ b.data := by
  cases a; cases b; rfl

theorem formatU64_valid (n : Nat) :
    (formatU64 n).data.all headerValueValidChar = true := by
  simp only [formatU64, List.all_eq_true]
  intro c hc
  have h := natDigits_digits n c hc
  simp only [headerValueValidChar, Bool.or_eq_true, beq_iff_eq,
    Bool.and_eq_true, decide_eq_true_eq, ne_eq]
  omega

theorem toHeaderString_valid (s : StrictTransportSecurity) :
    s.toHeaderString.data.all headerValueValidChar = true := by
  unfold StrictTransportSecurity.toHeaderString
  rw [data_append, data_append, data_append]
  simp only [List.all_append, Bool.and_eq_true]
  refine ⟨⟨⟨by decide, formatU64_valid s.duration⟩, ?_⟩, ?_⟩
  · cases s.include_subdomains <;> decide
  · cases s.preload <;> decide

theorem hstsValue_eq (s : StrictTransportSecurity) :
    headerValueFromStr s.toHeaderString = some s.toHeaderString := by
  simp [headerValueFromStr, toHeaderString_valid]

theorem insert_into_eq (s : StrictTransportSecurity) (res : HttpResponse) :
    s.insert_into res =
      some { res with
        headers := insertHeader res.headers STRICT_TRANSPORT_SECURITY
          s.toHeaderString } := by
  simp [StrictTransportSecurity.insert_into, hstsValue_eq]

theorem apply_hsts_eq (hsts : Option StrictTransportSecurity)
    (res : HttpResponse) :
    apply_hsts hsts res =
      some (match hsts with
        | some h =>
          { res with
            headers := insertHeader res.headers STRICT_TRANSPORT_SECURITY
              h.toHeaderString }
        | none => res) := by
  cases hsts <;> simp [apply_hsts, insert_into_eq]

theorem call_eq (mw : SchemeRedirectMiddleware)
    (service : ServiceRequest → HttpResponse) (req : ServiceRequest) :
    mw.call service req =
      if to_redirect mw.protocols req.peer_addr && (req.scheme != "https") then
        (apply_hsts mw.hsts
            (redirectResponse
              (builtUri mw.port (hostnameOf req.host) req.path))).map
          (fun r => (r, 0))
      else
        (apply_hsts mw.hsts (service req)).map (fun r => (r, 1)) :=
  rfl

theorem splitOnce_fst (l : List Char) (c : Char) :
    ((splitOnceChars l c).map Prod.fst).getD l =
      l.takeWhile (fun x => x != c) := by
  induction l with
  | nil => rfl
  | cons x xs ih =>
    by_cases h : x = c
    · subst h
      simp [splitOnceChars, List.takeWhile_cons]
    · have hx : (x != c) = true := by simp [h]
      simp only [splitOnceChars, if_neg h, List.takeWhile_cons, hx, if_true]
      cases hs : splitOnceChars xs c with
      | none =>
        simp only [hs, Option.map_none', Option.getD_none] at ih ⊢
        rw [← ih]
      | some p =>
        simp only [hs, Option.map_some', Option.getD_some] at ih ⊢
        rw [ih]

theorem hostnameOf_takeWhile (host : String) :
    hostnameOf host = String.mk (host.data.takeWhile (fun x => x != ':')) := by
  obtain ⟨l⟩ := host
  have h := splitOnce_fst l ':'
  simp only [hostnameOf, split_once]
  cases hs : splitOnceChars l ':' with
  | none =>
    simp only [hs, Option.map_none', Option.getD_none] at h ⊢
    exact congrArg String.mk h
  | some p =>
    simp only [hs, Option.map_some', Option.getD_some] at h ⊢
    exact congrArg String.mk h

theorem hostnameOf_no_colon (host : String) :
    ':' ∉ (hostnameOf host).data := by
  rw [hostnameOf_takeWhile]
  intro hmem
  have h := List.mem_takeWhile_imp hmem
  simp at h

theorem hostnameOf_subset (host : String) :
    ∀ c ∈ (hostnameOf host).data, c ∈ host.data := by
  rw [hostnameOf_takeWhile]
  intro c hc
  exact (List.takeWhile_sublist _).mem hc

theorem builtUri_valid (port : Option Nat) (host path : String)
    (hh : host.data.all headerValueValidChar = true)
    (hp : path.data.all headerValueValidChar = true) :
    (builtUri port (hostnameOf host) path).data.all headerValueValidChar
      = true := by
  have hhn : (hostnameOf host).data.all headerValueValidChar = true := by
    rw [List.all_eq_true] at hh ⊢
    intro c hc
    exact hh c (hostnameOf_subset host c hc)
  cases port with
  | none =>
    simp only [builtUri]
    rw [data_append, data_append]
    simp only [List.all_append, Bool.and_eq_true]
    exact ⟨⟨by decide, hhn⟩, hp⟩
  | some p =>
    simp only [builtUri]
    rw [data_append, data_append, data_append, data_append]
    simp only [List.all_append, Bool.and_eq_true]
    exact ⟨⟨⟨⟨by decide, hhn⟩, by decide⟩, formatU64_valid p⟩, hp⟩

theorem getHeader_insertHeader_self (m : List (String × String))
    (name v : String) :
    getHeader (insertHeader m name v) name = some v := by
  simp [getHeader, insertHeader, List.find?_cons]

theorem find_filter_ne (m : List (String × String)) (name other : String)
    (h : other ≠ name) :
    (m.filter (fun p => p.1 != name)).find? (fun p => p.1 == other) =
      m.find? (fun p => p.1 == other) := by
  induction m with
  | nil => rfl
  | cons x xs ih =>
    by_cases hx : x.1 = other
    · have hxn : (x.1 != name) = true := by simp [hx, h]
      simp [List.filter_cons, hxn, List.find?_cons, hx, h]
    · by_cases hxf : (x.1 != name) = true
      · simp [List.filter_cons, hxf, List.find?_cons, hx, ih]
      · simp [List.filter_cons, hxf, List.find?_cons, hx, ih]

theorem getHeader_insertHeader_ne (m : List (String × String))
    (name other v : String) (h : other ≠ name) :
    getHeader (insertHeader m name v) other = getHeader m other := by
  have hne : (name == other) = false := by
    simp
    intro he
    exact h he.symm
  simp only [getHeader, insertHeader, List.find?_cons, hne]
  rw [find_filter_ne m name other h]

theorem countHeader_insertHeader (m : List (String × String))
    (name v : String) :
    countHeader (insertHeader m name v) name = 1 := by
  simp only [countHeader, insertHeader, List.filter_cons, beq_self_eq_true,
    if_true]
  rw [List.filter_filter]
  have : ∀ p : String × String, ((p.1 == name) && (p.1 != name)) = false := by
    intro p
    by_cases hp : p.1 = name <;> simp [hp]
  simp [this]

theorem call_some_zero (mw : SchemeRedirectMiddleware)
    (service : ServiceRequest → HttpResponse) (req : ServiceRequest)
    (res : HttpResponse) (hc : mw.call service req = some (res, 0)) :
    (to_redirect mw.protocols req.peer_addr && (req.scheme != "https"))
      = true := by
  by_cases h :
      (to_redirect mw.protocols req.peer_addr && (req.scheme != "https"))
        = true
  · exact h
  · rw [call_eq] at hc
    simp only [h] at hc
    rw [apply_hsts_eq] at hc
    simp at hc

theorem builtUri_parses (mw : SchemeRedirectMiddleware) (req : ServiceRequest)
    (hh : req.host.data.all headerValueValidChar = true)
    (hp : req.path.data.all headerValueValidChar = true) :
    headerValueFromStr (builtUri mw.port (hostnameOf req.host) req.path) =
      some (builtUri mw.port (hostnameOf req.host) req.path) := by
  simp [headerValueFromStr,
    builtUri_valid mw.port req.host req.path hh hp]

theorem redirect_response_spec (mw : SchemeRedirectMiddleware)
    (service : ServiceRequest → HttpResponse) (req : ServiceRequest)
    (res : HttpResponse)
    (hh : req.host.data.all headerValueValidChar = true)
    (hp : req.path.data.all headerValueValidChar = true)
    (hc : mw.call service req = some (res, 0)) :
    res.status = 307 ∧
      getHeader res.headers "location" =
        some (builtUri mw.port (hostnameOf req.host) req.path) := by
  have hcond := call_some_zero mw service req res hc
  rw [call_eq, hcond] at hc
  rw [apply_hsts_eq] at hc
  simp only [if_true, Option.map_some', Option.some.injEq, Prod.mk.injEq,
    and_true] at hc
  have huri := builtUri_parses mw req hh hp
  cases hmw : mw.hsts with
  | none =>
    rw [hmw] at hc
    simp only at hc
    rw [← hc]
    constructor
    · rfl
    · simp only [redirectResponse, huri]
      exact getHeader_insertHeader_self [] "location" _
  | some h =>
    rw [hmw] at hc
    simp only at hc
    rw [← hc]
    constructor
    · rfl
    · rw [getHeader_insertHeader_ne _ _ _ _ (by decide)]
      simp only [redirectResponse, huri]
      exact getHeader_insertHeader_self [] "location" _

theorem call_count (mw : SchemeRedirectMiddleware)
    (service : ServiceRequest → HttpResponse) (req : ServiceRequest)
    (res : HttpResponse) (n : Nat)
    (hc : mw.call service req = some (res, n)) : n = 0 ∨ n = 1 := by
  rw [call_eq] at hc
  split at hc
  · rw [apply_hsts_eq] at hc
    simp only [Option.map_some', Option.some.injEq, Prod.mk.injEq] at hc
    exact Or.inl hc.2.symm
  · rw [apply_hsts_eq] at hc
    simp only [Option.map_some', Option.some.injEq, Prod.mk.injEq] at hc
    exact Or.inr hc.2.symm

/-- C6: for every `StrictTransportSecurity` policy, the built header value is
`max-age=` followed by the duration in seconds as a plain base-10 integer
(digit characters whose positional value is the duration itself), then
`; includeSubDomains` exactly when `include_subdomains`, then `; preload`
exactly when `preload`, in that order; in particular
`build({300,false,false}) = "max-age=300"` and
`build({600,true,true}) = "max-age=600; includeSubDomains; preload"`. -/
theorem C6_header_value_format :
    (∀ s : StrictTransportSecurity,
      s.toHeaderString =
        "max-age=" ++ formatU64 s.duration
          ++ (if s.include_subdomains then "; includeSubDomains" else "")
          ++ (if s.preload then "; preload" else "") ∧
      digitsVal (formatU64 s.duration).data = s.duration ∧
      (∀ c ∈ (formatU64 s.duration).data, 48 ≤ c.toNat ∧ c.toNat ≤ 57)) ∧
    StrictTransportSecurity.toHeaderString ⟨300, false, false⟩
      = "max-age=300" ∧
    StrictTransportSecurity.toHeaderString ⟨600, true, true⟩
      = "max-age=600; includeSubDomains; preload" := by
  refine ⟨fun s => ⟨rfl, ?_, ?_⟩, by decide, by decide⟩
  · exact digitsVal_natDigits s.duration
  · exact natDigits_digits s.duration

/-- C8: for every `StrictTransportSecurity` value (any duration in seconds,
any flags), the built header value always encodes as a valid HTTP header
value, so `HeaderValue::from_str` succeeds and `insert_into` never reaches
its failure branch: inserting the HSTS header never fails (nor panics). -/
theorem C8_insert_never_fails :
    ∀ (s : StrictTransportSecurity) (res : HttpResponse),
      headerValueFromStr s.toHeaderString = some s.toHeaderString ∧
      s.insert_into res ≠ none := by
  intro s res
  refine ⟨hstsValue_eq s, ?_⟩
  rw [insert_into_eq]
  exact Option.some_ne_none _

/-- C9: when no HSTS policy is configured, the HSTS step is the identity on
every response, and the middleware's output is exactly the untouched
redirect response or the untouched response of the wrapped service — no
Strict-Transport-Security header is added and no header is modified. -/
theorem C9_no_hsts_no_header_change (mw : SchemeRedirectMiddleware)
    (service : ServiceRequest → HttpResponse) (req : ServiceRequest)
    (h : mw.hsts = none) :
    (∀ res : HttpResponse, apply_hsts none res = some res) ∧
    mw.call service req =
      (if to_redirect mw.protocols req.peer_addr && (req.scheme != "https")
        then
          some (redirectResponse
            (builtUri mw.port (hostnameOf req.host) req.path), 0)
        else some (service req, 1)) := by
  refine ⟨fun res => rfl, ?_⟩
  rw [call_eq, h]
  split <;> rfl

theorem C9_witness :
    mwC.call nextConst reqF = some (nextConst reqF, 1) := by
  rw [(C9_no_hsts_no_header_change mwC nextConst reqF rfl).2]
  rfl

/-- C2: a redirect is issued if and only if the reported scheme is not
`https` and the (policy, classified family) pair is one of (IPv4, IPv4),
(IPv6, IPv6), (Both, IPv4), (Both, IPv6), where an absent peer address
classifies as `Unknown` (never redirecting), an IPv4-mapped IPv6 address
classifies as `IPv4`, any other IPv6 address as `IPv6`, and policy `None`
never redirects. -/
theorem C2_redirect_decision (mw : SchemeRedirectMiddleware)
    (service : ServiceRequest → HttpResponse) (req : ServiceRequest) :
    (∃ res, mw.call service req = some (res, 0)) ↔
      ((req.scheme != "https") = true ∧
        redirectPairSpec mw.protocols (classifySpec req.peer_addr) = true) := by
  have hiff :
      (to_redirect mw.protocols req.peer_addr && (req.scheme != "https"))
          = true ↔
        ((req.scheme != "https") = true ∧
          redirectPairSpec mw.protocols (classifySpec req.peer_addr)
            = true) := by
    rw [Bool.and_eq_true, to_redirect_spec]
    tauto
  constructor
  · rintro ⟨res, hres⟩
    exact hiff.mp (call_some_zero mw service req res hres)
  · intro h
    rw [call_eq, hiff.mpr h, apply_hsts_eq]
    simp

/-- C4: when an HSTS policy is configured, every response the middleware
produces — on the redirect path and on the forwarding path alike — carries
exactly one occurrence of the Strict-Transport-Security header, holding the
configured value: the insertion overwrites any prior value under that name
(last-writer-wins, never a duplicate). -/
theorem C4_hsts_single_insertion (mw : SchemeRedirectMiddleware)
    (service : ServiceRequest → HttpResponse) (req : ServiceRequest)
    (h : StrictTransportSecurity) (res : HttpResponse) (n : Nat)
    (hh : mw.hsts = some h)
    (hc : mw.call service req = some (res, n)) :
    countHeader res.headers STRICT_TRANSPORT_SECURITY = 1 ∧
      getHeader res.headers STRICT_TRANSPORT_SECURITY =
        some h.toHeaderString := by
  rw [call_eq] at hc
  simp only [apply_hsts_eq, hh, Option.map_some'] at hc
  split at hc <;>
  · simp only [Option.some.injEq, Prod.mk.injEq] at hc
    rw [← hc.1]
    exact ⟨countHeader_insertHeader _ _ _, getHeader_insertHeader_self _ _ _⟩

theorem C4_witness :
    countHeader resB.headers STRICT_TRANSPORT_SECURITY = 1 ∧
      getHeader resB.headers STRICT_TRANSPORT_SECURITY =
        some (StrictTransportSecurity.toHeaderString ⟨300, false, false⟩) :=
  C4_hsts_single_insertion mwB nextConst reqA ⟨300, false, false⟩ resB 0
    rfl (by rfl)

/-- C5: every response the middleware produces invoked the wrapped service
at most once; when it redirected (the service was not invoked at all), the
response has status 307 and its `location` header holds the built target
URI. -/
theorem C5_redirect_status (mw : SchemeRedirectMiddleware)
    (service : ServiceRequest → HttpResponse) (req : ServiceRequest)
    (res : HttpResponse) (n : Nat)
    (hh : req.host.data.all headerValueValidChar = true)
    (hp : req.path.data.all headerValueValidChar = true)
    (hc : mw.call service req = some (res, n)) :
    n ≤ 1 ∧
      ((to_redirect mw.protocols req.peer_addr && (req.scheme != "https"))
        = true → n = 0) ∧
      (n = 0 → res.status = 307 ∧
        getHeader res.headers "location" =
          some (builtUri mw.port (hostnameOf req.host) req.path)) := by
  refine ⟨?_, ?_, ?_⟩
  · rcases call_count mw service req res n hc with h | h <;> omega
  · intro hcond
    rw [call_eq, hcond, apply_hsts_eq] at hc
    simp only [if_true, Option.map_some', Option.some.injEq,
      Prod.mk.injEq] at hc
    exact hc.2.symm
  · intro hn
    subst hn
    exact redirect_response_spec mw service req res hh hp hc

theorem C5_witness :
    (0 : Nat) ≤ 1 ∧
      ((to_redirect mwA.protocols reqA.peer_addr &&
        (reqA.scheme != "https")) = true → (0 : Nat) = 0) ∧
      ((0 : Nat) = 0 → resA.status = 307 ∧
        getHeader resA.headers "location" =
          some (builtUri mwA.port (hostnameOf reqA.host) reqA.path)) :=
  C5_redirect_status mwA nextConst reqA resA 0 (by decide) (by decide)
    (by rfl)

/-- C7: on every redirected request, a configured redirect port appears in
the `location` URI in place of whatever followed the first colon of the
original host, while with no configured port the URI's authority is the
bare hostname, which contains no colon and hence no explicit port. -/
theorem C7_port_replacement (mw : SchemeRedirectMiddleware)
    (service : ServiceRequest → HttpResponse) (req : ServiceRequest)
    (res : HttpResponse)
    (hh : req.host.data.all headerValueValidChar = true)
    (hp : req.path.data.all headerValueValidChar = true)
    (hc : mw.call service req = some (res, 0)) :
    (∀ p, mw.port = some p →
      getHeader res.headers "location" =
        some ("https://" ++ hostnameOf req.host ++ ":" ++ formatU64 p
          ++ req.path)) ∧
    (mw.port = none →
      getHeader res.headers "location" =
        some ("https://" ++ hostnameOf req.host ++ req.path) ∧
      ':' ∉ (hostnameOf req.host).data) := by
  have h := redirect_response_spec mw service req res hh hp hc
  constructor
  · intro p hpo
    rw [hpo] at h
    simpa [builtUri] using h.2
  · intro hpo
    rw [hpo] at h
    exact ⟨by simpa [builtUri] using h.2, hostnameOf_no_colon req.host⟩

theorem C7_witness :
    (getHeader resA.headers "location" =
      some ("https://" ++ hostnameOf reqA.host ++ ":" ++ formatU64 8443
        ++ reqA.path)) ∧
    (getHeader resD.headers "location" =
      some ("https://" ++ hostnameOf reqD.host ++ reqD.path) ∧
      ':' ∉ (hostnameOf reqD.host).data) :=
  ⟨(C7_port_replacement mwA nextConst reqA resA (by decide) (by decide)
      (by rfl)).1 8443 rfl,
    (C7_port_replacement mwD nextConst reqD resD (by decide) (by decide)
      (by rfl)).2 rfl⟩

/-- C10: the hostname placed in the `location` URI of every redirect is the
prefix of the reported host before its first colon — characterised here as
`takeWhile (· ≠ ':')` — and for a bracketed IPv6 host literal such as
`[::1]:8080` that prefix is `[`, truncated inside the brackets rather than
at the port separator. -/
theorem C10_hostname_first_colon (mw : SchemeRedirectMiddleware)
    (service : ServiceRequest → HttpResponse) (req : ServiceRequest)
    (res : HttpResponse)
    (hh : req.host.data.all headerValueValidChar = true)
    (hp : req.path.data.all headerValueValidChar = true)
    (hc : mw.call service req = some (res, 0)) :
    getHeader res.headers "location" =
      some (builtUri mw.port
        (String.mk (req.host.data.takeWhile (fun c => c != ':')))
        req.path) ∧
    hostnameOf "[::1]:8080" = "[" := by
  constructor
  · rw [← hostnameOf_takeWhile]
    exact (redirect_response_spec mw service req res hh hp hc).2
  · decide

theorem C10_witness :
    getHeader resE.headers "location" =
      some (builtUri mwE.port
        (String.mk (reqE.host.data.takeWhile (fun c => c != ':')))
        reqE.path) ∧
    hostnameOf "[::1]:8080" = "[" :=
  C10_hostname_first_colon mwE nextConst reqE resE (by decide) (by decide)
    (by rfl)

/-- C1 counterexample: `reqA` has query string `x=1`, is redirected by
`mwA`, and the `location` header of the produced response is
`https://example.com:8443/a` — not the `https://example.com:8443/a?x=1`
the claim requires, so the query string is not preserved. -/
theorem C1_counterexample :
    reqA.query = some "x=1" ∧
    mwA.call nextConst reqA = some (resA, 0) ∧
    getHeader resA.headers "location" = some "https://example.com:8443/a" ∧
    "https://example.com:8443/a" ≠ "https://example.com:8443/a?x=1" := by
  exact ⟨rfl, rfl, rfl, by decide⟩

/-- C1 amended: for every redirected request, the `location` URI is
`https://<hostname>[:<configured port>]<path>` — the path verbatim but with
the query string always omitted, even when the request has one. -/
theorem C1_location_drops_query (mw : SchemeRedirectMiddleware)
    (service : ServiceRequest → HttpResponse) (req : ServiceRequest)
    (res : HttpResponse)
    (hh : req.host.data.all headerValueValidChar = true)
    (hp : req.path.data.all headerValueValidChar = true)
    (hc : mw.call service req = some (res, 0)) :
    getHeader res.headers "location" =
      some (match mw.port with
        | some p => "https://" ++ hostnameOf req.host ++ ":" ++ formatU64 p
            ++ req.path
        | none => "https://" ++ hostnameOf req.host ++ req.path) ∧
    (∀ q' : Option String,
      mw.call service
        { req with query := q' } = some (res, 0)) := by
  constructor
  · rw [(redirect_response_spec mw service req res hh hp hc).2]
    cases mw.port <;> rfl
  · intro q'
    have hcond := call_some_zero mw service req res hc
    have hcond2 :
        (to_redirect mw.protocols
            ({ req with query := q' } : ServiceRequest).peer_addr &&
          (({ req with query := q' } : ServiceRequest).scheme != "https"))
          = true := hcond
    rw [call_eq, hcond, apply_hsts_eq] at hc
    rw [call_eq, hcond2, apply_hsts_eq]
    simp only [if_true, Option.map_some'] at hc ⊢
    exact hc

theorem C1_witness :
    getHeader resA.headers "location" =
      some (match mwA.port with
        | some p => "https://" ++ hostnameOf reqA.host ++ ":" ++ formatU64 p
            ++ reqA.path
        | none => "https://" ++ hostnameOf reqA.host ++ reqA.path) ∧
    (∀ q' : Option String,
      mwA.call nextConst { reqA with query := q' } = some (resA, 0)) :=
  C1_location_drops_query mwA nextConst reqA resA (by decide) (by decide)
    (by rfl)

/-- C3 counterexample: `reqB` reports an empty host (no determinable
authority) and would redirect under `mwC`; the middleware does not skip to
forwarding — it redirects anyway (the wrapped service is invoked zero
times) and emits the malformed location `https:///p`. -/
theorem C3_counterexample :
    reqB.host = "" ∧
    mwC.call nextConst reqB = some (resC, 0) ∧
    resC.status = 307 ∧
    getHeader resC.headers "location" = some "https:///p" := by
  exact ⟨rfl, rfl, rfl, rfl⟩

/-- C3 amended: the middleware performs no host-availability check: when the
reported host is empty (the host cannot be determined) and the redirect
decision is true, it still redirects — the wrapped service is not invoked
and the response is a 307 whose `location` is `https://<path>` with an
empty hostname. -/
theorem C3_no_host_check (mw : SchemeRedirectMiddleware)
    (service : ServiceRequest → HttpResponse) (req : ServiceRequest)
    (res : HttpResponse) (n : Nat)
    (hhost : req.host = "")
    (hp : req.path.data.all headerValueValidChar = true)
    (hcond : (to_redirect mw.protocols req.peer_addr &&
      (req.scheme != "https")) = true)
    (hc : mw.call service req = some (res, n)) :
    n = 0 ∧ res.status = 307 ∧
      getHeader res.headers "location" =
        some (builtUri mw.port "" req.path) := by
  have hn : n = 0 := by
    rw [call_eq, hcond, apply_hsts_eq] at hc
    simp only [if_true, Option.map_some', Option.some.injEq,
      Prod.mk.injEq] at hc
    exact hc.2.symm
  subst hn
  have hspec := redirect_response_spec mw service req res
    (by rw [hhost]; decide) hp hc
  refine ⟨rfl, hspec.1, ?_⟩
  rw [hspec.2, hhost]
  rfl

theorem C3_witness :
    (0 : Nat) = 0 ∧ resC.status = 307 ∧
      getHeader resC.headers "location" =
        some (builtUri mwC.port "" reqB.path) :=
  C3_no_host_check mwC nextConst reqB resC 0 rfl (by decide) (by decide)
    (by rfl)

end SchemeRedirect
